import Mathlib

/-!
Verification of the ASR ENC-comparison scripts.

A shallow embedding, in Lean 4, of the condition codec, metric adapter,
system evaluator and comparison aggregator of the repository
(`test_script.py`, `validate_files.py`, `demo_simple_asr.py`), together
with theorems settling the specification claims about them.

Modelling conventions:
* Python `str` is Lean `String` (a wrapped `List Char`); `str.upper()` /
  `str.lower()` are modelled per-character with `Char.toUpper` /
  `Char.toLower`, which agrees with Python on the ASCII inputs the scripts
  work with.
* Python `float` is modelled as `Rat` (the scripts only ever move the
  collaborator scores around, average them, and subtract them).
* `pathlib.Path(filename).stem` is modelled on the file name (the code
  only ever passes `audio_file.name`).
* Python `dict` is an association list (`List (key × value)`) with
  overwrite-on-insert, preserving first-insertion position, exactly the
  visible behaviour of `dict` assignment.
* The external collaborators (Whisper transcription, `jiwer.wer` /
  `jiwer.cer`) are oracle parameters; an `Except` result models a Python
  call that either returns or raises.
* Report text rendering keeps the exact line strings of the code, with the
  four-decimal float formatting abstracted into a
  `fmt : Rat → String` parameter.
-/

namespace AsrTest

set_option maxRecDepth 100000

/-! ## Python string primitives used by the scripts -/

/-- Index of the last dot character in a list of characters, if any
(`str.rfind` restricted to what `pathlib` needs). -/
def lastDotIdx : List Char → Option Nat
  | [] => none
  | c :: rest =>
    match lastDotIdx rest with
    | some j => some (j + 1)
    | none => if c = '.' then some 0 else none

/-- Model of `pathlib.Path(name).stem`: the name with its final suffix removed.
The suffix is `name[i:]` for the last dot index `i` when `0 < i < len - 1`;
otherwise the stem is the whole name (dotfiles and trailing dots keep
their dot). -/
def pyStem (filename : String) : String :=
  match lastDotIdx filename.data with
  | some i =>
    if 0 < i ∧ i < filename.data.length - 1 then ⟨filename.data.take i⟩
    else filename
  | none => filename

/-- The character list the codecs operate on:
`Path(filename).stem.upper()` (uppercasing modelled per character). -/
def pyStemUpper (filename : String) : List Char :=
  (pyStem filename).data.map Char.toUpper

/-! ## Condition Codec (`test_script.py` `parse_filename`,
`validate_files.py` `validate_filename`) -/

/-- The fixed language code table
`A : EN, B : EN_ACCENT, C : CN, D : SV`;
`none` models absence from the dict. -/
def language_map (c : Char) : Option String :=
  if c = 'A' then some "EN"
  else if c = 'B' then some "EN_ACCENT"
  else if c = 'C' then some "CN"
  else if c = 'D' then some "SV"
  else none

/-- The fixed speech code table
`A : REGULAR, B : QUIET, C : WHISPER`. -/
def speech_map (c : Char) : Option String :=
  if c = 'A' then some "REGULAR"
  else if c = 'B' then some "QUIET"
  else if c = 'C' then some "WHISPER"
  else none

/-- The fixed background code table
`A : NIGHTCLUB, B : CAFE, C : SPEAKING`. -/
def background_map (c : Char) : Option String :=
  if c = 'A' then some "NIGHTCLUB"
  else if c = 'B' then some "CAFE"
  else if c = 'C' then some "SPEAKING"
  else none

/-- The dictionary `parse_filename` returns for a 3-character stem:
the three axis labels (each possibly `"UNKNOWN"`) plus the filename. -/
structure FileConditions where
  language : String
  speech_type : String
  background : String
  filename : String
deriving DecidableEq, Repr

/-- Model of `ENCTestEvaluator.parse_filename` (test_script.py:74-98), lenient
decoding: a stem of length other than 3 yields the empty dict (modelled
`none`); otherwise each character is looked up with `dict.get(code,
UNKNOWN)`. -/
def parse_filename (filename : String) : Option FileConditions :=
  match pyStemUpper filename with
  | [c1, c2, c3] =>
    some
      { language := (language_map c1).getD "UNKNOWN"
        speech_type := (speech_map c2).getD "UNKNOWN"
        background := (background_map c3).getD "UNKNOWN"
        filename := filename }
  | _ => none

/-- Result of strict validation: either the accumulated error messages or
the decoded condition triple. -/
inductive ValidationResult where
  | invalid (errors : List String)
  | valid (language speech_type background : String)
deriving DecidableEq, Repr

/-- The error list of a `ValidationResult` (empty when valid). -/
def ValidationResult.errors : ValidationResult → List String
  | .invalid e => e
  | .valid _ _ _ => []

/-- Model of `validate_filename` (validate_files.py:10-51), strict validation:
a stem of length other than 3 is a single length error; otherwise one
error is accumulated per axis whose character is outside its table, and
only when no error occurred is the condition returned.  (In the valid
branch every lookup is `some`, so the `getD` defaults are unreachable;
the Python code indexes the dicts directly there.) -/
def validate_filename (filename : String) : ValidationResult :=
  match pyStemUpper filename with
  | [c1, c2, c3] =>
    let errors :=
      (if (language_map c1).isNone then
        ["Invalid language code \x27" ++ toString c1 ++ "\x27. Must be A, B, C, or D"]
      else []) ++
      (if (speech_map c2).isNone then
        ["Invalid speech code \x27" ++ toString c2 ++ "\x27. Must be A, B, or C"]
      else []) ++
      (if (background_map c3).isNone then
        ["Invalid background code \x27" ++ toString c3 ++ "\x27. Must be A, B, or C"]
      else [])
    if errors.isEmpty then
      .valid ((language_map c1).getD "UNKNOWN") ((speech_map c2).getD "UNKNOWN")
        ((background_map c3).getD "UNKNOWN")
    else .invalid errors
  | l => .invalid ["Filename must be exactly 3 characters, got " ++ toString l.length]

/-- Model of `DemoSimpleASR.detect_language_from_filename` (demo_simple_asr.py:36-43):
first character of the upper-cased stem through
the table `A : EN, B : EN, C : CN, D : SV` with default `EN`,
defaulting to `EN` for an empty stem. -/
def detect_language_from_filename (filename : String) : String :=
  match pyStemUpper filename with
  | [] => "EN"
  | c :: _ =>
    ((if c = 'A' then some "EN"
      else if c = 'B' then some "EN"
      else if c = 'C' then some "CN"
      else if c = 'D' then some "SV"
      else none).getD "EN")

/-! ## Metric Adapter (`test_script.py` `compute_wer` / `compute_cer`)

The `jiwer.Compose` pipeline built by the code applies, in order:
`ToLowerCase`, `RemoveMultipleSpaces`, `Strip`, `RemovePunctuation`.
It is modelled on the character list (whitespace and punctuation taken at
their ASCII tables, matching the inputs of the scripts). -/

/-- Python whitespace characters (ASCII portion of `\s`). -/
def pyIsSpace (c : Char) : Bool :=
  [' ', '\t', '\n', '\r', '\x0b', '\x0c'].contains c

/-- The characters `RemovePunctuation` strips (ASCII
`string.punctuation`). -/
def punctuationChars : List Char :=
  "!\x22#$%&\x27()*+,-./:;<=>?@[\\]^_\x60\x7b|\x7d~".data

/-- Flush a pending whitespace run: a run of two or more whitespace
characters becomes a single space, a run of one is kept as-is. -/
def flushRun (run : List Char) : List Char :=
  if 2 ≤ run.length then [' '] else run

/-- Worker for `RemoveMultipleSpaces`: `run` is the current whitespace run,
reversed. -/
def collapseSpacesGo : List Char → List Char → List Char
  | run, [] => flushRun run.reverse
  | run, c :: rest =>
    if pyIsSpace c then collapseSpacesGo (c :: run) rest
    else flushRun run.reverse ++ c :: collapseSpacesGo [] rest

/-- Model of `jiwer.RemoveMultipleSpaces`: every maximal whitespace run of length
at least two is replaced by a single space. -/
def collapseMultipleSpaces (l : List Char) : List Char :=
  collapseSpacesGo [] l

/-- Model of `str.strip()`: drop leading and trailing whitespace. -/
def pyStripChars (l : List Char) : List Char :=
  ((l.dropWhile pyIsSpace).reverse.dropWhile pyIsSpace).reverse

/-- Model of `RemovePunctuation`: drop every punctuation character. -/
def removePunctuation (l : List Char) : List Char :=
  l.filter (fun c => ! punctuationChars.contains c)

/-- The full `jiwer.Compose` normalization applied by `compute_wer` and
`compute_cer`: lower-case, collapse whitespace runs, strip, strip
punctuation. -/
def jiwerTransform (s : String) : String :=
  ⟨removePunctuation (pyStripChars (collapseMultipleSpaces (s.data.map Char.toLower)))⟩

/-- Model of `ENCTestEvaluator.compute_wer` (test_script.py:112-132).  The external
`jiwer.wer` call is the oracle `werImpl`; `Except.error` models a raised
exception, which the `except` clause maps to `1.0`, as it does an empty
normalized reference. -/
def compute_wer (werImpl : String → String → Except String Rat)
    (reference hypothesis : String) : Rat :=
  let reference_clean := jiwerTransform reference
  let hypothesis_clean := jiwerTransform hypothesis
  if reference_clean = "" then 1
  else
    match werImpl reference_clean hypothesis_clean with
    | .ok v => v
    | .error _ => 1

/-- Model of `ENCTestEvaluator.compute_cer` (test_script.py:134-154), identical to
`compute_wer` with `jiwer.cer` as the oracle. -/
def compute_cer (cerImpl : String → String → Except String Rat)
    (reference hypothesis : String) : Rat :=
  let reference_clean := jiwerTransform reference
  let hypothesis_clean := jiwerTransform hypothesis
  if reference_clean = "" then 1
  else
    match cerImpl reference_clean hypothesis_clean with
    | .ok v => v
    | .error _ => 1

/-! ## System Evaluator (`test_script.py` `evaluate_system`) -/

/-- The `self.test_phrases` dictionary (test_script.py:30-34): canonical
reference passages keyed by language (`EN`, `CN`, `SV`). -/
def test_phrases (language : String) : Option String :=
  if language = "EN" then some "Hey, just thinking out loud here. I had an idea during my walk—what if we made the intro flow more dynamic? Maybe animations or voice cues? Could be good for first-time users. Also, Marcus still hasn\x27t sent the revised mockups. Need to chase that. Oh, and budget—Jill flagged an inconsistency. Gotta double-check the numbers. Anyway, I\x27m recording this now so I don\x27t forget later. Testing, testing—how\x27s the clarity? Hopefully background noise is cleaner with the new update. Alright, that\x27s it for now. Saving this and moving on. Add this recording to the work collection."
  else if language = "CN" then some "刚刚路上突然想到一个点子，录一下以防忘了。那个新手引导是不是可以做得更有互动感一点？比如加点动画或者语音提示，可能对第一次用的用户更友好。然后，马克那边的新版图还没发我，得催一下。还有预算那块，吉尔说有个地方对不上，我回头再核对一下。顺便测试下这个录音效果，新功能应该能降点噪吧？听得清吗？把这份录音添加到工作收藏夹里面。"
  else if language = "SV" then some "Fick en idé på vägen hem, tänkte spela in innan jag glömmer. Kanske borde vi göra introduktionen lite mer interaktiv? Typ lägga till animationer eller röststöd—kan hjälpa nya användare att fatta snabbare. Förresten, Marcus har fortfarande inte skickat de uppdaterade mockupsen, måste påminna honom. Och budgeten—Jill nämnde att nåt inte stämmer där, jag kollar det sen. Testar ljudet nu också—hörs det klart? Bakgrundsljudet borde vara mindre med nya funktionen. Okej, det var allt för nu. Lägg till det här i arbetskollektionen."
  else none

/-- One `EvaluationRecord` as stored in `system_results[test_key]`
(test_script.py:193-200). -/
structure EvalRecord where
  filename : String
  reference : String
  transcription : String
  wer : Rat
  cer : Rat
  conditions : FileConditions
deriving DecidableEq, Repr

/-- A per-system result table: the Python dict from condition key
(`"<language>_<speech_type>_<background>"`) to record. -/
abbrev ResultTable : Type := List (String × EvalRecord)

/-- Python dict assignment `d[k] = v`: overwrite in place if the key is
present, else append. -/
def insertOverwrite : List (String × EvalRecord) → String → EvalRecord →
    List (String × EvalRecord)
  | [], k, v => [(k, v)]
  | (k0, v0) :: rest, k, v =>
    if k0 = k then (k0, v) :: rest
    else (k0, v0) :: insertOverwrite rest k v

/-- Python dict lookup `d.get(k)`: first (hence only) binding of the key. -/
def lookupTable (t : ResultTable) (k : String) : Option EvalRecord :=
  match t with
  | [] => none
  | (k0, v0) :: rest => if k0 = k then some v0 else lookupTable rest k

/-- The loop body accumulator of `ENCTestEvaluator.evaluate_system`
(test_script.py:163-203), processing the remaining files.
`transcribe` is the Whisper oracle of `transcribe_audio` with its
exception handler already folded in (an exception yields `""`,
test_script.py:100-110). -/
def evaluate_system_go (transcribe : String → String)
    (werImpl cerImpl : String → String → Except String Rat) :
    List String → List (String × EvalRecord) → List (String × EvalRecord)
  | [], acc => acc
  | audio_file :: rest, acc =>
    match parse_filename audio_file with
    | none => evaluate_system_go transcribe werImpl cerImpl rest acc
    | some conditions =>
      let language :=
        if conditions.language = "EN_ACCENT" then "EN" else conditions.language
      let reference_text := (test_phrases language).getD ""
      if reference_text = "" then
        evaluate_system_go transcribe werImpl cerImpl rest acc
      else
        let transcription := transcribe audio_file
        if transcription = "" then
          evaluate_system_go transcribe werImpl cerImpl rest acc
        else
          let wer := compute_wer werImpl reference_text transcription
          let cer := compute_cer cerImpl reference_text transcription
          let test_key := conditions.language ++ "_" ++ conditions.speech_type
            ++ "_" ++ conditions.background
          evaluate_system_go transcribe werImpl cerImpl rest
            (insertOverwrite acc test_key
              { filename := audio_file
                reference := reference_text
                transcription := transcription
                wer := wer
                cer := cer
                conditions := conditions })

/-- Model of `ENCTestEvaluator.evaluate_system`: fold the per-unit pipeline over the
audio files of one system, producing its `ResultTable`. -/
def evaluate_system (transcribe : String → String)
    (werImpl cerImpl : String → String → Except String Rat)
    (files : List String) : ResultTable :=
  evaluate_system_go transcribe werImpl cerImpl files []

/-! ## Comparison Aggregator (`test_script.py` `generate_report`) -/

/-- Lexicographic comparison of character lists by code point: the Python
string `<`. -/
def lexLt : List Char → List Char → Bool
  | [], [] => false
  | [], _ :: _ => true
  | _ :: _, [] => false
  | a :: as, b :: bs =>
    if a < b then true
    else if b < a then false
    else lexLt as bs

/-- Python string comparison `a < b` (code-point lexicographic, the order
`sorted` uses). -/
def strLt (a b : String) : Bool :=
  lexLt a.data b.data

/-- Insert a key into a strictly ascending duplicate-free list, keeping it
so (the building block of `sorted(set(...))`). -/
def insertSortedDistinct (s : String) : List String → List String
  | [] => [s]
  | t :: rest =>
    if s = t then t :: rest
    else if strLt s t then s :: t :: rest
    else t :: insertSortedDistinct s rest

/-- Model of `sorted(set(l))`: the ascending enumeration of the distinct elements
of `l`. -/
def pySortedSet (l : List String) : List String :=
  l.foldr insertSortedDistinct []

/-- One entry of the per-condition comparison section
(test_script.py:237-258): the condition key, the `(wer, cer)` of each system
when it has a record (`none` renders as the `"No data"` line), and the
improvement pair `(nothing − skywalk)` present exactly when both systems
have a record. -/
structure ConditionEntry where
  condition : String
  skywalk : Option (Rat × Rat)
  nothing : Option (Rat × Rat)
  improvement : Option (Rat × Rat)
deriving DecidableEq, Repr

/-- The per-condition comparison loop of `generate_report`
(test_script.py:232-258): enumerate `sorted` over the set union of the
keys of the two tables; look each key up in both tables; compute the
improvement deltas only when both lookups succeed. -/
def conditionComparison (skywalk nothing_ : ResultTable) : List ConditionEntry :=
  (pySortedSet ((skywalk.map Prod.fst) ++ (nothing_.map Prod.fst))).map
    (fun condition =>
      let s := lookupTable skywalk condition
      let n := lookupTable nothing_ condition
      { condition := condition
        skywalk := s.map (fun r => (r.wer, r.cer))
        nothing := n.map (fun r => (r.wer, r.cer))
        improvement :=
          match s, n with
          | some sr, some nr => some (nr.wer - sr.wer, nr.cer - sr.cer)
          | _, _ => none })

/-- The report lines appended for one condition entry
(test_script.py:238-258); `fmt` abstracts the four-decimal
(and sign-prefixed) float formatting. -/
def renderConditionEntry (fmt : Rat → String) (e : ConditionEntry) : List String :=
  ["\nTest Condition: " ++ e.condition] ++
  (match e.skywalk with
   | some (w, c) => ["  Skywalk - WER: " ++ fmt w ++ ", CER: " ++ fmt c]
   | none => ["  Skywalk - No data"]) ++
  (match e.nothing with
   | some (w, c) => ["  Nothing - WER: " ++ fmt w ++ ", CER: " ++ fmt c]
   | none => ["  Nothing - No data"]) ++
  (match e.improvement with
   | some (w, c) => ["  Improvement - WER: " ++ fmt w ++ ", CER: " ++ fmt c]
   | none => [])

/-- The per-language averages of the table of one system
(test_script.py:266-281): filter the records to the language; `none`
when the filtered list is empty, else the unweighted means of `wer` and
`cer`. -/
def languageAverages (results : ResultTable) (language : String) :
    Option (Rat × Rat) :=
  let lang_results :=
    (results.map Prod.snd).filter (fun r => r.conditions.language = language)
  if lang_results.isEmpty then none
  else
    some ((lang_results.map EvalRecord.wer).sum / lang_results.length,
      (lang_results.map EvalRecord.cer).sum / lang_results.length)

/-- The language loop of the `PERFORMANCE BY LANGUAGE` section
(test_script.py:265-287). -/
def performanceByLanguage (skywalk nothing_ : ResultTable) :
    List (String × Option (Rat × Rat) × Option (Rat × Rat)) :=
  ["EN", "EN_ACCENT", "CN", "SV"].map
    (fun language =>
      (language, languageAverages skywalk language,
        languageAverages nothing_ language))

/-- The report lines appended for one language (test_script.py:283-287):
the header line, then a `Skywalk` line only when its average exists, then
a `Nothing` line only when its average exists — a missing average emits
nothing at all. -/
def renderLanguageEntry (fmt : Rat → String) (language : String)
    (sky noth : Option (Rat × Rat)) : List String :=
  ["\n" ++ language ++ ":"] ++
  (match sky with
   | some (w, c) => ["  Skywalk - Avg WER: " ++ fmt w ++ ", Avg CER: " ++ fmt c]
   | none => []) ++
  (match noth with
   | some (w, c) => ["  Nothing - Avg WER: " ++ fmt w ++ ", Avg CER: " ++ fmt c]
   | none => [])

/-- Modelled from the spec: the lexical order of the condition triple (the
order the spec says the per-condition section is sorted by), i.e.
lexicographic on `(language, speech_type, background)` component by
component.  Used only to compare against the key-string order of the code. -/
def tripleLexLt (a b : String × String × String) : Prop :=
  strLt a.1 b.1 = true ∨ (a.1 = b.1 ∧
    (strLt a.2.1 b.2.1 = true ∨ (a.2.1 = b.2.1 ∧ strLt a.2.2 b.2.2 = true)))

instance (a b : String × String × String) : Decidable (tripleLexLt a b) := by
  unfold tripleLexLt
  infer_instance

/-- A sample record under condition `(EN, REGULAR, CAFE)`. -/
def recEnRegularCafe : EvalRecord :=
  { filename := "AAB.wav"
    reference := "r"
    transcription := "t"
    wer := 0
    cer := 0
    conditions :=
      { language := "EN", speech_type := "REGULAR", background := "CAFE",
        filename := "AAB.wav" } }

/-- A sample record under condition `(EN_ACCENT, REGULAR, CAFE)`. -/
def recAccentRegularCafe : EvalRecord :=
  { filename := "BAB.wav"
    reference := "r"
    transcription := "t"
    wer := 0
    cer := 0
    conditions :=
      { language := "EN_ACCENT", speech_type := "REGULAR",
        background := "CAFE", filename := "BAB.wav" } }

/-- A sample skywalk table holding only the `(EN, REGULAR, CAFE)`
record. -/
def sampleTableA : ResultTable := [("EN_REGULAR_CAFE", recEnRegularCafe)]

/-- A sample nothing table holding only the `(EN_ACCENT, REGULAR, CAFE)`
record. -/
def sampleTableB : ResultTable :=
  [("EN_ACCENT_REGULAR_CAFE", recAccentRegularCafe)]

/-! ## Claim theorems -/

/-- C6: for every reference and hypothesis pair, if the reference text
normalizes (case-fold, collapse whitespace, trim, strip punctuation) to
the empty string, then scoring returns WER = 1.0 and CER = 1.0 regardless
of the hypothesis text. -/
theorem c6_empty_reference_scores_one
    (werImpl cerImpl : String → String → Except String Rat)
    (reference hypothesis : String)
    (h : jiwerTransform reference = "") :
    compute_wer werImpl reference hypothesis = 1 ∧
      compute_cer cerImpl reference hypothesis = 1 := by
  unfold compute_wer compute_cer
  simp [h]

/-- Witness for C6 at the concrete reference `" !!! "`, which normalizes
to the empty string, and an arbitrary hypothesis and oracle. -/
theorem c6_empty_reference_scores_one_witness :
    compute_wer (fun _ _ => .ok 0) " !!! " "hello" = 1 ∧
      compute_cer (fun _ _ => .ok 0) " !!! " "hello" = 1 :=
  c6_empty_reference_scores_one (fun _ _ => .ok 0) (fun _ _ => .ok 0)
    " !!! " "hello" (by decide)

/-- C8: if the external error-rate collaborator raises during a metric
computation, the computation returns 1.0 for the affected metric instead
of propagating the failure (the model is a total function, so no
exception escapes). -/
theorem c8_collaborator_failure_scores_one
    (werImpl cerImpl : String → String → Except String Rat)
    (reference hypothesis : String) (ew ec : String)
    (hw : werImpl (jiwerTransform reference) (jiwerTransform hypothesis) =
      .error ew)
    (hc : cerImpl (jiwerTransform reference) (jiwerTransform hypothesis) =
      .error ec) :
    compute_wer werImpl reference hypothesis = 1 ∧
      compute_cer cerImpl reference hypothesis = 1 := by
  unfold compute_wer compute_cer
  by_cases h : jiwerTransform reference = "" <;> simp [h, hw, hc]

/-- Witness for C8 at a concrete always-raising collaborator. -/
theorem c8_collaborator_failure_scores_one_witness :
    compute_wer (fun _ _ => .error "jiwer failure") "abc def" "x" = 1 ∧
      compute_cer (fun _ _ => .error "jiwer failure") "abc def" "x" = 1 :=
  c8_collaborator_failure_scores_one (fun _ _ => .error "jiwer failure")
    (fun _ _ => .error "jiwer failure") "abc def" "x" "jiwer failure"
    "jiwer failure" rfl rfl

/-- Closed form of `detect_language_from_filename`: the dictionary `get`
with default collapses to a first-character case split. -/
theorem detect_language_eq (filename : String) :
    detect_language_from_filename filename =
      match pyStemUpper filename with
      | [] => "EN"
      | c :: _ =>
        if c = 'A' ∨ c = 'B' then "EN"
        else if c = 'C' then "CN"
        else if c = 'D' then "SV"
        else "EN" := by
  unfold detect_language_from_filename
  cases pyStemUpper filename with
  | nil => rfl
  | cons c rest =>
    by_cases hA : c = 'A' <;> by_cases hB : c = 'B' <;>
      by_cases hC : c = 'C' <;> by_cases hD : c = 'D' <;>
      simp [hA, hB, hC, hD]

/-- C10: demo-mode language auto-detection from the first character of the
upper-cased stem is total, never yields `UNKNOWN` (nor `EN_ACCENT`),
maps `A` and `B` both to `EN`, `C` to `CN`, `D` to `SV`, and defaults to
`EN` for every other first character and for the empty stem. -/
theorem c10_demo_language_detection_total (filename : String) :
    (detect_language_from_filename filename = "EN" ∨
      detect_language_from_filename filename = "CN" ∨
      detect_language_from_filename filename = "SV") ∧
    detect_language_from_filename filename ≠ "UNKNOWN" ∧
    detect_language_from_filename filename ≠ "EN_ACCENT" ∧
    (pyStemUpper filename = [] → detect_language_from_filename filename = "EN") ∧
    (∀ c rest, pyStemUpper filename = c :: rest →
      detect_language_from_filename filename =
        if c = 'A' ∨ c = 'B' then "EN"
        else if c = 'C' then "CN"
        else if c = 'D' then "SV"
        else "EN") := by
  simp only [detect_language_eq]
  cases h : pyStemUpper filename with
  | nil =>
    simp
    decide
  | cons c rest =>
    refine ⟨?_, ?_, ?_, by simp, ?_⟩
    · dsimp only
      split_ifs <;> simp
    · dsimp only
      split_ifs <;> decide
    · dsimp only
      split_ifs <;> decide
    · intro c0 rest0 hc
      injection hc with h1 h2
      subst h1
      rfl

/-- The language table never returns the sentinel. -/
theorem language_map_ne_unknown {c : Char} {v : String}
    (h : language_map c = some v) : v ≠ "UNKNOWN" := by
  unfold language_map at h
  split_ifs at h <;> simp only [Option.some.injEq] at h <;> subst h <;> decide

/-- The speech table never returns the sentinel. -/
theorem speech_map_ne_unknown {c : Char} {v : String}
    (h : speech_map c = some v) : v ≠ "UNKNOWN" := by
  unfold speech_map at h
  split_ifs at h <;> simp only [Option.some.injEq] at h <;> subst h <;> decide

/-- The background table never returns the sentinel. -/
theorem background_map_ne_unknown {c : Char} {v : String}
    (h : background_map c = some v) : v ≠ "UNKNOWN" := by
  unfold background_map at h
  split_ifs at h <;> simp only [Option.some.injEq] at h <;> subst h <;> decide

/-- C2 (amended): lenient decoding never raises, but it is not
length-tolerant — a stem of exactly 3 characters decodes each axis
through its table with `UNKNOWN` fallback, and every other stem length
yields the empty result (no condition), rather than ignoring characters
beyond the third. -/
theorem c2_parse_lenient_shape (s : String) :
    ((pyStemUpper s).length ≠ 3 → parse_filename s = none) ∧
    (∀ c1 c2 c3, pyStemUpper s = [c1, c2, c3] →
      parse_filename s = some
        { language := (language_map c1).getD "UNKNOWN"
          speech_type := (speech_map c2).getD "UNKNOWN"
          background := (background_map c3).getD "UNKNOWN"
          filename := s }) := by
  constructor
  · intro h
    unfold parse_filename
    split
    · rename_i c1 c2 c3 heq
      exact absurd (by rw [heq] ; rfl) h
    · rfl
  · intro c1 c2 c3 h
    unfold parse_filename
    rw [h]

/-- Witness for the amended theorem of C2 at the stems `"ACB"` (length 3) and
`"AAAA"` (length 4). -/
theorem c2_parse_lenient_shape_witness :
    parse_filename "AAAA.wav" = none ∧
      parse_filename "ACB.wav" = some
        { language := "EN", speech_type := "WHISPER", background := "CAFE",
          filename := "ACB.wav" } :=
  ⟨(c2_parse_lenient_shape "AAAA.wav").1 (by decide),
    ((c2_parse_lenient_shape "ACB.wav").2 'A' 'C' 'B' (by decide)).trans
      (by decide)⟩

/-- C2 counterexample: the claim says characters beyond the third are
ignored, so `"AAAA.wav"` would decode to the `(EN, REGULAR, NIGHTCLUB)`
condition; the code instead rejects the 4-character stem and returns the
empty dictionary (no condition at all). -/
theorem c2_counterexample : parse_filename "AAAA.wav" = none := by decide

/-- C5: strict validation of a stem whose length is not 3 produces the
single length error and no per-axis error; for a 3-character stem it
accumulates exactly one error per axis whose symbol is outside its
table (so all three for `"XYZ"`), rather than stopping at the first. -/
theorem c5_validate_errors (s : String) :
    ((pyStemUpper s).length ≠ 3 →
      validate_filename s = .invalid
        ["Filename must be exactly 3 characters, got " ++
          toString (pyStemUpper s).length]) ∧
    (∀ c1 c2 c3, pyStemUpper s = [c1, c2, c3] →
      (validate_filename s).errors.length =
        ((if (language_map c1).isNone then 1 else 0) +
          (if (speech_map c2).isNone then 1 else 0) +
          (if (background_map c3).isNone then 1 else 0))) := by
  constructor
  · intro h
    unfold validate_filename
    split
    · rename_i c1 c2 c3 heq
      exact absurd (by rw [heq] ; rfl) h
    · rfl
  · intro c1 c2 c3 h
    unfold validate_filename
    rw [h]
    rcases hl : language_map c1 with _ | l <;>
      rcases hs : speech_map c2 with _ | sp <;>
      rcases hb : background_map c3 with _ | b <;>
      simp [hl, hs, hb, ValidationResult.errors]

/-- Witness for C5 at the concrete filenames `"AB.wav"` (length error
only) and `"XYZ.wav"` (three axis errors). -/
theorem c5_validate_errors_witness :
    validate_filename "AB.wav" = .invalid
      ["Filename must be exactly 3 characters, got 2"] ∧
      (validate_filename "XYZ.wav").errors.length = 3 :=
  ⟨((c5_validate_errors "AB.wav").1 (by decide)).trans (by decide),
    ((c5_validate_errors "XYZ.wav").2 'X' 'Y' 'Z' (by decide)).trans
      (by decide)⟩

/-- C7: for every filename, strict validation succeeds with a condition
triple exactly when lenient decoding returns that same triple with no
`UNKNOWN` on any axis. -/
theorem c7_decode_validate_agree (s l sp b : String) :
    validate_filename s = .valid l sp b ↔
      (parse_filename s = some
          { language := l, speech_type := sp, background := b, filename := s } ∧
        l ≠ "UNKNOWN" ∧ sp ≠ "UNKNOWN" ∧ b ≠ "UNKNOWN") := by
  unfold validate_filename parse_filename
  cases hst : pyStemUpper s with
  | nil => simp
  | cons c1 t1 =>
    cases t1 with
    | nil => simp
    | cons c2 t2 =>
      cases t2 with
      | nil => simp
      | cons c3 t3 =>
        cases t3 with
        | cons c4 t4 => simp
        | nil =>
          rcases hl : language_map c1 with _ | lv <;>
            rcases hs : speech_map c2 with _ | sv <;>
            rcases hb : background_map c3 with _ | bv <;>
            simp [hl, hs, hb]
          all_goals try (intros ; subst_vars ; simp_all)
          rintro rfl rfl rfl
          exact ⟨language_map_ne_unknown hl, speech_map_ne_unknown hs,
            background_map_ne_unknown hb⟩

/-- Witness for C7 at the concrete filename `"ACB.wav"`. -/
theorem c7_decode_validate_agree_witness :
    parse_filename "ACB.wav" = some
        { language := "EN", speech_type := "WHISPER", background := "CAFE",
          filename := "ACB.wav" } ∧
      "EN" ≠ "UNKNOWN" ∧ "WHISPER" ≠ "UNKNOWN" ∧ "CAFE" ≠ "UNKNOWN" :=
  (c7_decode_validate_agree "ACB.wav" "EN" "WHISPER" "CAFE").mp (by decide)

/-- A pair in a dict after assignment was either already present or is the
assigned binding. -/
theorem mem_insertOverwrite {k : String} {v : EvalRecord} :
    ∀ {acc : List (String × EvalRecord)} {p : String × EvalRecord},
      p ∈ insertOverwrite acc k v → p ∈ acc ∨ p = (k, v) := by
  intro acc
  induction acc with
  | nil =>
    intro p hp
    simp [insertOverwrite] at hp
    exact Or.inr hp
  | cons q rest ih =>
    intro p hp
    rcases q with ⟨k0, v0⟩
    by_cases hk : k0 = k
    · rw [insertOverwrite, if_pos hk] at hp
      rcases List.mem_cons.mp hp with h | h
      · exact Or.inr (by rw [h, hk])
      · exact Or.inl (List.mem_cons_of_mem _ h)
    · rw [insertOverwrite, if_neg hk] at hp
      rcases List.mem_cons.mp hp with h | h
      · exact Or.inl (by rw [h] ; exact List.mem_cons_self _ _)
      · rcases ih h with h2 | h2
        · exact Or.inl (List.mem_cons_of_mem _ h2)
        · exact Or.inr h2

/-- Every record the evaluation loop ever stores has a non-empty
transcription equal to the output of the oracle on its file, and a decoded
language other than `UNKNOWN` (otherwise the reference-text lookup is
empty and the unit is skipped before scoring). -/
theorem evaluate_records_invariant (transcribe : String → String)
    (werImpl cerImpl : String → String → Except String Rat)
    (files : List String) :
    ∀ acc : List (String × EvalRecord),
      (∀ p ∈ acc, p.2.transcription = transcribe p.2.filename ∧
        p.2.transcription ≠ "" ∧ p.2.conditions.language ≠ "UNKNOWN") →
      ∀ p ∈ evaluate_system_go transcribe werImpl cerImpl files acc,
        p.2.transcription = transcribe p.2.filename ∧
          p.2.transcription ≠ "" ∧ p.2.conditions.language ≠ "UNKNOWN" := by
  induction files with
  | nil =>
    intro acc hacc
    simpa [evaluate_system_go] using hacc
  | cons file rest ih =>
    intro acc hacc
    rw [evaluate_system_go]
    cases hp : parse_filename file with
    | none => exact ih acc hacc
    | some conditions =>
      dsimp only
      by_cases href :
          (test_phrases (if conditions.language = "EN_ACCENT" then "EN"
            else conditions.language)).getD "" = ""
      · rw [if_pos href]
        exact ih acc hacc
      · rw [if_neg href]
        by_cases htr : transcribe file = ""
        · rw [if_pos htr]
          exact ih acc hacc
        · rw [if_neg htr]
          apply ih
          intro p hmem
          rcases mem_insertOverwrite hmem with h | h
          · exact hacc p h
          · rw [h]
            refine ⟨rfl, htr, ?_⟩
            intro hEq
            exact href (by rw [hEq] ; decide)

/-- C4: a unit whose transcription comes back empty is skipped — every
stored record carries the non-empty oracle transcription of its own
file, so no record (in particular none with a defaulted worst-case
score) exists for a unit the oracle failed on. -/
theorem c4_empty_transcription_skipped (transcribe : String → String)
    (werImpl cerImpl : String → String → Except String Rat)
    (files : List String) :
    (∀ p ∈ evaluate_system transcribe werImpl cerImpl files,
      p.2.transcription = transcribe p.2.filename ∧ p.2.transcription ≠ "") ∧
    (∀ f, transcribe f = "" →
      ∀ p ∈ evaluate_system transcribe werImpl cerImpl files,
        p.2.filename ≠ f) := by
  have base :
      ∀ p ∈ evaluate_system transcribe werImpl cerImpl files,
        p.2.transcription = transcribe p.2.filename ∧
          p.2.transcription ≠ "" ∧ p.2.conditions.language ≠ "UNKNOWN" :=
    evaluate_records_invariant transcribe werImpl cerImpl files [] (by simp)
  refine ⟨fun p hp => ⟨(base p hp).1, (base p hp).2.1⟩, fun f hf p hp hne => ?_⟩
  rcases base p hp with ⟨h1, h2, _⟩
  rw [hne, hf] at h1
  exact h2 h1

/-- Witness for C4: with an oracle transcribing every unit to `"hi"`, the
single record produced for `"AAA.wav"` satisfies the invariant. -/
theorem c4_empty_transcription_skipped_witness :
    ({ filename := "AAA.wav"
       reference := (test_phrases "EN").getD ""
       transcription := "hi"
       wer := 0
       cer := 0
       conditions :=
         { language := "EN", speech_type := "REGULAR",
           background := "NIGHTCLUB", filename := "AAA.wav" } } :
        EvalRecord).transcription = "hi" ∧
      ({ filename := "AAA.wav"
         reference := (test_phrases "EN").getD ""
         transcription := "hi"
         wer := 0
         cer := 0
         conditions :=
           { language := "EN", speech_type := "REGULAR",
             background := "NIGHTCLUB", filename := "AAA.wav" } } :
          EvalRecord).transcription ≠ "" :=
  (c4_empty_transcription_skipped (fun _ => "hi") (fun _ _ => .ok 0)
      (fun _ _ => .ok 0) ["AAA.wav"]).1
    ("EN_REGULAR_NIGHTCLUB",
      { filename := "AAA.wav"
        reference := (test_phrases "EN").getD ""
        transcription := "hi"
        wer := 0
        cer := 0
        conditions :=
          { language := "EN", speech_type := "REGULAR",
            background := "NIGHTCLUB", filename := "AAA.wav" } })
    (by decide)

/-- C1 counterexample: the unit `"AAZ.wav"` decodes with
`background = UNKNOWN`, yet (with any non-empty transcription) a record
for it is stored under the key `"EN_REGULAR_UNKNOWN"` — the claim says a
unit with `UNKNOWN` on any axis produces no record. -/
theorem c1_counterexample :
    (evaluate_system (fun _ => "hi") (fun _ _ => .ok 0) (fun _ _ => .ok 0)
        ["AAZ.wav"]).map (fun p => (p.1, p.2.conditions.background)) =
      [("EN_REGULAR_UNKNOWN", "UNKNOWN")] := by decide

/-- C1 (amended): only an `UNKNOWN` *language* axis forces a skip (through
the empty reference-text lookup); every stored record has a known
language, while records with `UNKNOWN` speech type or background can
exist. -/
theorem c1_unknown_language_never_recorded (transcribe : String → String)
    (werImpl cerImpl : String → String → Except String Rat)
    (files : List String) :
    ∀ p ∈ evaluate_system transcribe werImpl cerImpl files,
      p.2.conditions.language ≠ "UNKNOWN" :=
  fun p hp =>
    (evaluate_records_invariant transcribe werImpl cerImpl files [] (by simp)
      p hp).2.2

/-- Witness for the amended theorem of C1 on the table built from
`["AAZ.wav"]`. -/
theorem c1_unknown_language_never_recorded_witness :
    ({ language := "EN", speech_type := "REGULAR",
       background := "UNKNOWN", filename := "AAZ.wav" } :
        FileConditions).language ≠ "UNKNOWN" :=
  c1_unknown_language_never_recorded (fun _ => "hi") (fun _ _ => .ok 0)
    (fun _ _ => .ok 0) ["AAZ.wav"]
    ("EN_REGULAR_UNKNOWN",
      { filename := "AAZ.wav"
        reference := (test_phrases "EN").getD ""
        transcription := "hi"
        wer := 0
        cer := 0
        conditions :=
          { language := "EN", speech_type := "REGULAR",
            background := "UNKNOWN", filename := "AAZ.wav" } })
    (by decide)

/-- Witness for C10 at the concrete filename `"xQ7.wav"` (first character
`X` after upper-casing, outside the table, hence `EN`). -/
theorem c10_demo_language_detection_total_witness :
    detect_language_from_filename "xQ7.wav" = "EN" :=
  ((c10_demo_language_detection_total "xQ7.wav").2.2.2.2 'X' ['Q', '7']
    (by decide)).trans (by decide)

/-- Transitivity of `lexLt`. -/
theorem lexLt_trans :
    ∀ {a b c : List Char}, lexLt a b = true → lexLt b c = true →
      lexLt a c = true := by
  intro a
  induction a with
  | nil =>
    intro b c hab hbc
    cases c with
    | nil =>
      cases b with
      | nil => simp [lexLt] at hab
      | cons y bs => simp [lexLt] at hbc
    | cons z cs => simp [lexLt]
  | cons x as ih =>
    intro b c hab hbc
    cases b with
    | nil => simp [lexLt] at hab
    | cons y bs =>
      cases c with
      | nil => simp [lexLt] at hbc
      | cons z cs =>
        rw [lexLt] at hab hbc ⊢
        by_cases hxy : x < y
        · rw [if_pos hxy] at hab
          by_cases hyz : y < z
          · rw [if_pos (lt_trans hxy hyz)]
          · rw [if_neg hyz] at hbc
            by_cases hzy : z < y
            · rw [if_pos hzy] at hbc
              exact absurd hbc (by simp)
            · have hyez : y = z := le_antisymm (not_lt.mp hzy) (not_lt.mp hyz)
              subst hyez
              rw [if_pos hxy]
        · rw [if_neg hxy] at hab
          by_cases hyx : y < x
          · rw [if_pos hyx] at hab
            exact absurd hab (by simp)
          · have hxey : x = y := le_antisymm (not_lt.mp hyx) (not_lt.mp hxy)
            subst hxey
            rw [if_neg (lt_irrefl x)] at hab
            by_cases hxz : x < z
            · rw [if_pos hxz]
            · rw [if_neg hxz] at hbc ⊢
              by_cases hzx : z < x
              · rw [if_pos hzx] at hbc
                exact absurd hbc (by simp)
              · rw [if_neg hzx] at hbc ⊢
                exact ih hab hbc

/-- Totality of `lexLt` up to equality. -/
theorem lexLt_total :
    ∀ a b : List Char, a = b ∨ lexLt a b = true ∨ lexLt b a = true := by
  intro a
  induction a with
  | nil =>
    intro b
    cases b with
    | nil => exact Or.inl rfl
    | cons d bs => exact Or.inr (Or.inl rfl)
  | cons c as ih =>
    intro b
    cases b with
    | nil => exact Or.inr (Or.inr rfl)
    | cons d bs =>
      by_cases hcd : c < d
      · exact Or.inr (Or.inl (by rw [lexLt, if_pos hcd]))
      · by_cases hdc : d < c
        · exact Or.inr (Or.inr (by rw [lexLt, if_pos hdc]))
        · have hceq : c = d := le_antisymm (not_lt.mp hdc) (not_lt.mp hcd)
          subst hceq
          rcases ih bs with h | h | h
          · exact Or.inl (by rw [h])
          · exact Or.inr (Or.inl
              (by rw [lexLt, if_neg (lt_irrefl c), if_neg (lt_irrefl c)] ; exact h))
          · exact Or.inr (Or.inr
              (by rw [lexLt, if_neg (lt_irrefl c), if_neg (lt_irrefl c)] ; exact h))

/-- Transitivity of `strLt`. -/
theorem strLt_trans {a b c : String} (hab : strLt a b = true)
    (hbc : strLt b c = true) : strLt a c = true :=
  lexLt_trans hab hbc

/-- Totality of `strLt` up to equality. -/
theorem strLt_total (a b : String) :
    a = b ∨ strLt a b = true ∨ strLt b a = true := by
  rcases lexLt_total a.data b.data with h | h | h
  · rcases a with ⟨da⟩
    rcases b with ⟨db⟩
    exact Or.inl (by rw [show da = db from h])
  · exact Or.inr (Or.inl h)
  · exact Or.inr (Or.inr h)

/-- Membership through `insertSortedDistinct`. -/
theorem mem_insertSortedDistinct {x s : String} :
    ∀ {l : List String}, x ∈ insertSortedDistinct s l ↔ x = s ∨ x ∈ l := by
  intro l
  induction l with
  | nil => simp [insertSortedDistinct]
  | cons t rest ih =>
    by_cases hst : s = t
    · subst hst
      rw [insertSortedDistinct, if_pos rfl]
      simp only [List.mem_cons]
      tauto
    · by_cases hlt : strLt s t = true
      · simp only [insertSortedDistinct, if_neg hst, if_pos hlt,
          List.mem_cons]
      · simp only [insertSortedDistinct, if_neg hst, if_neg hlt,
          List.mem_cons, ih]
        tauto

/-- Insertion by `insertSortedDistinct` preserves strict ascending order. -/
theorem pairwise_insertSortedDistinct {s : String} :
    ∀ {l : List String}, l.Pairwise (fun a b => strLt a b = true) →
      (insertSortedDistinct s l).Pairwise (fun a b => strLt a b = true) := by
  intro l
  induction l with
  | nil =>
    intro _
    simp [insertSortedDistinct]
  | cons t rest ih =>
    intro h
    rcases List.pairwise_cons.mp h with ⟨ht, hrest⟩
    by_cases hst : s = t
    · rw [insertSortedDistinct, if_pos hst]
      exact h
    · by_cases hlt : strLt s t = true
      · rw [insertSortedDistinct, if_neg hst, if_pos hlt]
        refine List.pairwise_cons.mpr ⟨?_, h⟩
        intro x hx
        rcases List.mem_cons.mp hx with rfl | hx
        · exact hlt
        · exact strLt_trans hlt (ht x hx)
      · rw [insertSortedDistinct, if_neg hst, if_neg hlt]
        refine List.pairwise_cons.mpr ⟨?_, ih hrest⟩
        intro x hx
        rcases mem_insertSortedDistinct.mp hx with rfl | hx
        · rcases strLt_total x t with h2 | h2 | h2
          · exact absurd h2 hst
          · exact absurd h2 hlt
          · exact h2
        · exact ht x hx

/-- The list `pySortedSet l` is strictly ascending (hence duplicate-free) and
enumerates exactly the elements of its input. -/
theorem pySortedSet_spec (l : List String) :
    (pySortedSet l).Pairwise (fun a b => strLt a b = true) ∧
      ∀ x, x ∈ pySortedSet l ↔ x ∈ l := by
  induction l with
  | nil => simp [pySortedSet]
  | cons a rest ih =>
    rcases ih with ⟨hp, hm⟩
    refine ⟨?_, ?_⟩
    · simpa only [pySortedSet, List.foldr_cons] using
        pairwise_insertSortedDistinct hp
    · intro x
      simp only [pySortedSet, List.foldr_cons] at hm ⊢
      rw [mem_insertSortedDistinct, List.mem_cons, hm x]

/-- C3 (amended): the per-condition section enumerates exactly the union
of the condition keys of the two tables, in strictly ascending code-point order
of the joined `"<language>_<speech_type>_<background>"` key strings (not
of the underlying triples); for each key it reports, per system, the
`(wer, cer)` exactly when that system has a record (otherwise the
`"No data"` line), and the improvement deltas `nothing − skywalk`
exactly when both systems have a record. -/
theorem c3_condition_section (ta tb : ResultTable) :
    ((conditionComparison ta tb).map ConditionEntry.condition =
      pySortedSet (ta.map Prod.fst ++ tb.map Prod.fst)) ∧
    ((conditionComparison ta tb).map ConditionEntry.condition).Pairwise
      (fun a b => strLt a b = true) ∧
    (∀ k, k ∈ (conditionComparison ta tb).map ConditionEntry.condition ↔
      (k ∈ ta.map Prod.fst ∨ k ∈ tb.map Prod.fst)) ∧
    (∀ e ∈ conditionComparison ta tb,
      e.skywalk = (lookupTable ta e.condition).map (fun r => (r.wer, r.cer)) ∧
      e.nothing = (lookupTable tb e.condition).map (fun r => (r.wer, r.cer)) ∧
      (e.improvement.isSome ↔ (e.skywalk.isSome ∧ e.nothing.isSome)) ∧
      (∀ rs rn, lookupTable ta e.condition = some rs →
        lookupTable tb e.condition = some rn →
        e.improvement = some (rn.wer - rs.wer, rn.cer - rs.cer)) ∧
      (∀ fmt, e.skywalk = none →
        "  Skywalk - No data" ∈ renderConditionEntry fmt e) ∧
      (∀ fmt, e.nothing = none →
        "  Nothing - No data" ∈ renderConditionEntry fmt e)) := by
  have hmap : (conditionComparison ta tb).map ConditionEntry.condition =
      pySortedSet (ta.map Prod.fst ++ tb.map Prod.fst) := by
    unfold conditionComparison
    rw [List.map_map]
    exact List.map_id _
  refine ⟨hmap, ?_, ?_, ?_⟩
  · rw [hmap]
    exact (pySortedSet_spec _).1
  · intro k
    rw [hmap, ((pySortedSet_spec _).2 k), List.mem_append]
  · intro e he
    rcases List.mem_map.mp he with ⟨k, _, rfl⟩
    refine ⟨rfl, rfl, ?_, ?_, ?_, ?_⟩
    · cases hs : lookupTable ta k <;> cases hn : lookupTable tb k <;>
        simp [hs, hn]
    · intro rs rn hs hn
      simp [hs, hn]
    · intro fmt hnone
      simp only at hnone
      simp [renderConditionEntry, hnone]
    · intro fmt hnone
      simp only at hnone
      simp [renderConditionEntry, hnone]

/-- C3 counterexample: with records for `(EN, REGULAR, CAFE)` (system A)
and `(EN_ACCENT, REGULAR, CAFE)` (system B), the code enumerates the key
`"EN_ACCENT_REGULAR_CAFE"` *before* `"EN_REGULAR_CAFE"` (string order:
`'A' < 'R'` at position 3), even though the `EN` triple is strictly
smaller in the lexical order of triples — so the enumeration is not sorted
by the lexical order of condition triples as claimed. -/
theorem c3_counterexample :
    (conditionComparison sampleTableA sampleTableB).map
        ConditionEntry.condition =
      ["EN_ACCENT_REGULAR_CAFE", "EN_REGULAR_CAFE"] ∧
    (lookupTable sampleTableA "EN_REGULAR_CAFE").map
        (fun r => (r.conditions.language, r.conditions.speech_type,
          r.conditions.background)) = some ("EN", "REGULAR", "CAFE") ∧
    (lookupTable sampleTableB "EN_ACCENT_REGULAR_CAFE").map
        (fun r => (r.conditions.language, r.conditions.speech_type,
          r.conditions.background)) =
      some ("EN_ACCENT", "REGULAR", "CAFE") ∧
    tripleLexLt ("EN", "REGULAR", "CAFE") ("EN_ACCENT", "REGULAR", "CAFE") := by
  decide

/-- Witness for the amended theorem of C3: at the sample tables, the entry for
`"EN_ACCENT_REGULAR_CAFE"` has no skywalk record and its rendering
contains the `"Skywalk - No data"` line. -/
theorem c3_condition_section_witness :
    "  Skywalk - No data" ∈ renderConditionEntry (fun _ => "")
      { condition := "EN_ACCENT_REGULAR_CAFE"
        skywalk := none
        nothing := some (0, 0)
        improvement := none } :=
  ((c3_condition_section sampleTableA sampleTableB).2.2.2
    { condition := "EN_ACCENT_REGULAR_CAFE"
      skywalk := none
      nothing := some (0, 0)
      improvement := none }
    (by decide)).2.2.2.2.1 (fun _ => "") rfl

/-- C9 (amended): the per-language view iterates exactly the four
canonical languages; for each, the aggregate of a system is the unweighted
arithmetic mean of the WER and CER of its records filtered to that language,
computed only when the filtered set is non-empty.  When the filtered set
is empty the average of the system is absent and its report line is omitted
entirely — no value (in particular neither `0.0` nor `NaN`) and no
`"no data"` text is emitted for it. -/
theorem c9_language_aggregates (results : ResultTable) (language : String) :
    ((results.map Prod.snd).filter
        (fun r => r.conditions.language = language) = [] ↔
      languageAverages results language = none) ∧
    ((results.map Prod.snd).filter
        (fun r => r.conditions.language = language) ≠ [] →
      languageAverages results language = some
        ((((results.map Prod.snd).filter
            (fun r => r.conditions.language = language)).map
              EvalRecord.wer).sum /
          ((results.map Prod.snd).filter
            (fun r => r.conditions.language = language)).length,
          (((results.map Prod.snd).filter
            (fun r => r.conditions.language = language)).map
              EvalRecord.cer).sum /
          ((results.map Prod.snd).filter
            (fun r => r.conditions.language = language)).length)) ∧
    (∀ nothingTable : ResultTable,
      performanceByLanguage results nothingTable =
        ["EN", "EN_ACCENT", "CN", "SV"].map
          (fun lang =>
            (lang, languageAverages results lang,
              languageAverages nothingTable lang))) ∧
    (∀ fmt, renderLanguageEntry fmt language none none =
      ["\n" ++ language ++ ":"]) ∧
    (∀ fmt w c, renderLanguageEntry fmt language none (some (w, c)) =
      ["\n" ++ language ++ ":",
        "  Nothing - Avg WER: " ++ fmt w ++ ", Avg CER: " ++ fmt c]) := by
  refine ⟨?_, ?_, fun _ => rfl, fun _ => rfl, fun _ _ _ => rfl⟩
  · by_cases h : (results.map Prod.snd).filter
        (fun r => r.conditions.language = language) = [] <;>
      simp [languageAverages, List.isEmpty_iff, h]
  · intro h
    simp [languageAverages, List.isEmpty_iff, h]

/-- Witness for the amended theorem of C9: the single `EN_ACCENT` record of
the sample table yields its own scores as the (unweighted mean)
aggregate. -/
theorem c9_language_aggregates_witness :
    languageAverages sampleTableB "EN_ACCENT" =
      some
        ((((sampleTableB.map Prod.snd).filter
            (fun r => r.conditions.language = "EN_ACCENT")).map
              EvalRecord.wer).sum /
          ((sampleTableB.map Prod.snd).filter
            (fun r => r.conditions.language = "EN_ACCENT")).length,
          (((sampleTableB.map Prod.snd).filter
            (fun r => r.conditions.language = "EN_ACCENT")).map
              EvalRecord.cer).sum /
          ((sampleTableB.map Prod.snd).filter
            (fun r => r.conditions.language = "EN_ACCENT")).length) :=
  (c9_language_aggregates sampleTableB "EN_ACCENT").2.1 (by decide)

/-- C9 counterexample: with a system that has no `EN` records, the
per-language section renders only the language header and the other
average line of the other system — it contains no `"no data"` statement (and no
line for the empty system at all), contrary to the claim that the report
states `"no data"` for that system and language. -/
theorem c9_counterexample :
    languageAverages ([] : ResultTable) "EN" = none ∧
      renderLanguageEntry (fun _ => "0.0000") "EN"
          (languageAverages ([] : ResultTable) "EN")
          (languageAverages sampleTableA "EN") =
        ["\nEN:", "  Nothing - Avg WER: 0.0000, Avg CER: 0.0000"] := by
  decide

end AsrTest
